import Mathlib

/-!
# Verification of `qexpr`: typed query expressions and their structural validator

Shallow embedding of `src/src/lib.rs` (crate `qexpr`): the expression data
model (`Term`, `Phrase`, `Near`, `FieldName`, `QExpr`), the blankness
predicates, the error taxonomy (`ValidateError`), and the recursive
structural validator `validate`.

Rust strings become Lean `String`; `str::trim` becomes `strTrim` below;
`Vec<T>` becomes `List T`; `u32` becomes `Nat` (only the zero test on
`window` is ever consulted, so the width does not matter);
`Result<(), ValidateError>` becomes `Except ValidateError Unit`.
-/

/-- Model of Rust `str::trim` on the character list of a string: drop leading
and trailing whitespace characters (whitespace modelled by `Char.isWhitespace`).
Defined over `List Char` so that it reduces in the kernel. -/
def strTrim (s : String) : List Char :=
  ((s.data.dropWhile Char.isWhitespace).reverse.dropWhile Char.isWhitespace).reverse

/-- Rust `Term(pub String)`: a normalized term token. -/
structure Term where
  text : String
deriving DecidableEq, Repr

/-- Constructor `Term::new`: create a term (never fails). -/
def Term.new (s : String) : Term := ⟨s⟩

/-- Predicate `Term::is_blank`: true if the term is empty or whitespace
(`self.0.trim().is_empty()`). -/
def Term.is_blank (t : Term) : Bool := (strTrim t.text).isEmpty

/-- Rust `FieldName(pub String)`: a field name. -/
structure FieldName where
  text : String
deriving DecidableEq, Repr

/-- Constructor `FieldName::new`: create a field name. -/
def FieldName.new (s : String) : FieldName := ⟨s⟩

/-- Predicate `FieldName::is_blank`: true if the field name is empty or whitespace
(`self.0.trim().is_empty()`). -/
def FieldName.is_blank (f : FieldName) : Bool := (strTrim f.text).isEmpty

/-- Rust `Phrase { terms: Vec<Term> }`: a phrase of ordered terms. -/
structure Phrase where
  terms : List Term
deriving DecidableEq, Repr

/-- Constructor `Phrase::new`. -/
def Phrase.new (terms : List Term) : Phrase := ⟨terms⟩

/-- Predicate `Phrase::is_blank`:
`self.terms.is_empty() || self.terms.iter().all(|t| t.is_blank())`. -/
def Phrase.is_blank (p : Phrase) : Bool :=
  p.terms.isEmpty || p.terms.all Term.is_blank

/-- Rust `Near { terms: Vec<Term>, window: u32, ordered: bool }`:
a proximity query over ordered terms. -/
structure Near where
  terms : List Term
  window : Nat
  ordered : Bool
deriving DecidableEq, Repr

/-- Constructor `Near::new`. -/
def Near.new (terms : List Term) (window : Nat) (ordered : Bool) : Near :=
  ⟨terms, window, ordered⟩

/-- Predicate `Near::is_blank`:
`self.terms.len() < 2 || self.terms.iter().all(|t| t.is_blank()) || self.window == 0`. -/
def Near.is_blank (n : Near) : Bool :=
  decide (n.terms.length < 2) || n.terms.all Term.is_blank || decide (n.window = 0)

/-- Rust `enum QExpr`: the closed recursive sum type of query expressions. -/
inductive QExpr where
  /-- A single term. -/
  | Term : Term → QExpr
  /-- A phrase (ordered sequence of terms). -/
  | Phrase : Phrase → QExpr
  /-- Proximity query: terms must occur within a window. -/
  | Near : Near → QExpr
  /-- Conjunction: all children must match. -/
  | And : List QExpr → QExpr
  /-- Disjunction: any child may match. -/
  | Or : List QExpr → QExpr
  /-- Negation: exclude matches of inner expression. -/
  | Not : QExpr → QExpr
  /-- Field scoping (e.g. `title:term`). -/
  | Field : FieldName → QExpr → QExpr

/-- Rust `enum ValidateError`: structural validation errors for `QExpr`. -/
inductive ValidateError where
  /-- A `Term` node contained a blank term. -/
  | BlankTerm
  /-- A `Phrase` node contained no usable terms. -/
  | BlankPhrase
  /-- A `Near` node contained fewer than 2 usable terms or an invalid window. -/
  | BlankNear
  /-- An `And`/`Or` node had no children. -/
  | EmptyJunction
  /-- A `Field` node had a blank field name. -/
  | BlankFieldName
deriving DecidableEq, Repr

deriving instance DecidableEq for Except

mutual

/-- Rust `pub fn validate(expr: &QExpr) -> Result<(), ValidateError>`:
validate a query expression for basic structural invariants. -/
def validate : QExpr → Except ValidateError Unit
  | .Term t => if t.is_blank then .error .BlankTerm else .ok ()
  | .Phrase p => if p.is_blank then .error .BlankPhrase else .ok ()
  | .Near n => if n.is_blank then .error .BlankNear else .ok ()
  | .And xs =>
      if xs.isEmpty then .error .EmptyJunction else validateChildren xs
  | .Or xs =>
      if xs.isEmpty then .error .EmptyJunction else validateChildren xs
  | .Not x => validate x
  | .Field name inner =>
      if name.is_blank then .error .BlankFieldName else validate inner
termination_by structural e => e

/-- The `for x in xs { validate(x)?; }` loop of the `And`/`Or` arm:
validate each child in order, short-circuiting on the first error. -/
def validateChildren : List QExpr → Except ValidateError Unit
  | [] => .ok ()
  | x :: xs =>
      match validate x with
      | .error e => .error e
      | .ok _ => validateChildren xs
termination_by structural xs => xs

end

/-! ## Helper lemmas -/

/-- Unfolding `validate` on each constructor (the structural equations). -/
theorem validate_term_def (t : Term) :
    validate (QExpr.Term t) =
      if t.is_blank then .error .BlankTerm else .ok () := by
  simp [validate]

theorem validate_phrase_def (p : Phrase) :
    validate (QExpr.Phrase p) =
      if p.is_blank then .error .BlankPhrase else .ok () := by
  simp [validate]

theorem validate_near_def (n : Near) :
    validate (QExpr.Near n) =
      if n.is_blank then .error .BlankNear else .ok () := by
  simp [validate]

/-! ## Claims -/

/-- Claim C4: `validate(Term(t))` is `Err(BlankTerm)` iff `t.is_blank()`, where
blankness means the text of the term, trimmed of surrounding whitespace, is empty;
otherwise it is `Ok(())`. -/
theorem term_is_blank_validate (t : Term) :
    (t.is_blank = true ↔ strTrim t.text = []) ∧
    (validate (QExpr.Term t) = Except.error ValidateError.BlankTerm ↔
      t.is_blank = true) ∧
    (validate (QExpr.Term t) = Except.ok () ↔ t.is_blank = false) := by
  refine ⟨by simp [Term.is_blank], ?_, ?_⟩ <;>
    rw [validate_term_def] <;> cases h : t.is_blank <;> simp [h]

/-- Claim C3: `Phrase::new(ts).is_blank()` holds iff `ts` is empty or every
term is blank; `validate(Phrase(p))` is `Err(BlankPhrase)` iff `p.is_blank()`,
and `Ok(())` otherwise (even when some individual terms are blank). -/
theorem phrase_is_blank_validate (ts : List Term) :
    ((Phrase.new ts).is_blank = true ↔
      ts = [] ∨ ∀ t ∈ ts, t.is_blank = true) ∧
    (validate (QExpr.Phrase (Phrase.new ts)) =
        Except.error ValidateError.BlankPhrase ↔
      (Phrase.new ts).is_blank = true) ∧
    (validate (QExpr.Phrase (Phrase.new ts)) = Except.ok () ↔
      (Phrase.new ts).is_blank = false) := by
  refine ⟨by simp [Phrase.is_blank, Phrase.new], ?_, ?_⟩ <;>
    rw [validate_phrase_def] <;>
      cases h : (Phrase.new ts).is_blank <;> simp [h]

/-- Claim C2: `Near::new(ts, w, o).is_blank()` holds iff `ts` has fewer than 2
elements, or every term is blank, or `w = 0`; `validate(Near(n))` is
`Err(BlankNear)` iff `n.is_blank()`, and `Ok(())` otherwise. -/
theorem near_is_blank_validate (ts : List Term) (w : Nat) (o : Bool) :
    ((Near.new ts w o).is_blank = true ↔
      ts.length < 2 ∨ (∀ t ∈ ts, t.is_blank = true) ∨ w = 0) ∧
    (validate (QExpr.Near (Near.new ts w o)) =
        Except.error ValidateError.BlankNear ↔
      (Near.new ts w o).is_blank = true) ∧
    (validate (QExpr.Near (Near.new ts w o)) = Except.ok () ↔
      (Near.new ts w o).is_blank = false) := by
  refine ⟨by simp [Near.is_blank, Near.new, or_assoc], ?_, ?_⟩ <;>
    rw [validate_near_def] <;>
      cases h : (Near.new ts w o).is_blank <;> simp [h]

/-- Claim C6: `validate(Not(x)) == validate(x)` — negation adds no rule of
its own. -/
theorem validate_not_eq_child (x : QExpr) :
    validate (QExpr.Not x) = validate x := by
  simp [validate]

/-- Claim C10: the `ordered` flag of `Near` has no influence on blankness or
validation (two-run noninterference over the `ordered` input). -/
theorem near_ordered_noninterference (ts : List Term) (w : Nat) :
    (Near.new ts w true).is_blank = (Near.new ts w false).is_blank ∧
    validate (QExpr.Near (Near.new ts w true)) =
      validate (QExpr.Near (Near.new ts w false)) := by
  constructor
  · rfl
  · rw [validate_near_def, validate_near_def]; rfl

/-- Claim C9: `validate` is total and its result ranges over `Ok(())` and the
five `ValidateError` values; being a function, it is deterministic. -/
theorem validate_total_range (e : QExpr) :
    validate e = Except.ok () ∨
    validate e = Except.error ValidateError.BlankTerm ∨
    validate e = Except.error ValidateError.BlankPhrase ∨
    validate e = Except.error ValidateError.BlankNear ∨
    validate e = Except.error ValidateError.EmptyJunction ∨
    validate e = Except.error ValidateError.BlankFieldName := by
  cases h : validate e with
  | ok u => cases u; exact Or.inl rfl
  | error err => cases err <;> simp

/-! ## Junctions (C1) -/

/-- The error reported for a single child, if any. -/
def childError (x : QExpr) : Option ValidateError :=
  match validate x with
  | .error e => some e
  | .ok _ => none

/-- Statement of the spec sentence for junctions: fail with `EmptyJunction`
on an empty child list; otherwise return the first child error found in
left-to-right order (`List.findSome?`); succeed when no child errs. -/
def junctionSpec : List QExpr → Except ValidateError Unit
  | [] => .error .EmptyJunction
  | x :: xs =>
    match (x :: xs).findSome? childError with
    | some e => .error e
    | none => .ok ()

theorem validateChildren_eq_findSome (xs : List QExpr) :
    validateChildren xs =
      match xs.findSome? childError with
      | some e => Except.error e
      | none => Except.ok () := by
  induction xs with
  | nil => simp [validateChildren]
  | cons x xs ih =>
    rw [List.findSome?_cons]
    cases h : validate x with
    | error e => simp [validateChildren, childError, h]
    | ok u => cases u; simp [validateChildren, childError, h, ih]

theorem validateChildren_ok_iff (xs : List QExpr) :
    validateChildren xs = Except.ok () ↔
      ∀ x ∈ xs, validate x = Except.ok () := by
  induction xs with
  | nil => simp [validateChildren]
  | cons x xs ih =>
    cases h : validate x with
    | error e => simp [validateChildren, h]
    | ok u => cases u; simp [validateChildren, h, ih]

/-- Claim C1: `And(xs)` and `Or(xs)` validate identically; empty child lists
yield `EmptyJunction`; otherwise children are validated left to right and the
first child error is returned (short-circuit), with `Ok(())` when every child
validates `Ok`. -/
theorem validate_and_or_first_error (xs : List QExpr) :
    validate (QExpr.And xs) = validate (QExpr.Or xs) ∧
    validate (QExpr.And xs) = junctionSpec xs ∧
    (validate (QExpr.And xs) = Except.ok () ↔
      xs ≠ [] ∧ ∀ x ∈ xs, validate x = Except.ok ()) := by
  have hand : validate (QExpr.And xs) =
      if xs.isEmpty then .error .EmptyJunction else validateChildren xs := by
    simp [validate]
  have hor : validate (QExpr.Or xs) =
      if xs.isEmpty then .error .EmptyJunction else validateChildren xs := by
    simp [validate]
  refine ⟨hand.trans hor.symm, ?_, ?_⟩
  · rw [hand]
    cases xs with
    | nil => simp [junctionSpec]
    | cons x xs => simp [junctionSpec, validateChildren_eq_findSome]
  · rw [hand]
    cases xs with
    | nil => simp
    | cons x xs => simp [validateChildren_ok_iff]

/-! ## Field scoping (C5) -/

/-- Claim C5: a blank field name yields `BlankFieldName` without examining the
child (the same error for every child); a non-blank field name delegates to
the child. -/
theorem validate_field_blank_name (f : FieldName) (c : QExpr) :
    (f.is_blank = true →
      validate (QExpr.Field f c) = Except.error ValidateError.BlankFieldName) ∧
    (f.is_blank = false → validate (QExpr.Field f c) = validate c) := by
  constructor <;> intro h <;> simp [validate, h]

/-- Witness for C5: blank field name wins even over an invalid child; a
non-blank field name returns the result of the child itself. -/
theorem validate_field_blank_name_witness :
    validate (QExpr.Field (FieldName.new "") (QExpr.Term (Term.new ""))) =
      Except.error ValidateError.BlankFieldName ∧
    validate (QExpr.Field (FieldName.new "f") (QExpr.Term (Term.new "a"))) =
      validate (QExpr.Term (Term.new "a")) :=
  ⟨(validate_field_blank_name (FieldName.new "") (QExpr.Term (Term.new ""))).1
      (by decide),
   (validate_field_blank_name (FieldName.new "f") (QExpr.Term (Term.new "a"))).2
      (by decide)⟩

/-! ## Subtree closure (C8) -/

/-- Relation stating that `s` is an immediate child of `e` in the tree. -/
inductive IsChild : QExpr → QExpr → Prop where
  | and_mem {x : QExpr} {xs : List QExpr} : x ∈ xs → IsChild x (QExpr.And xs)
  | or_mem {x : QExpr} {xs : List QExpr} : x ∈ xs → IsChild x (QExpr.Or xs)
  | not_child {x : QExpr} : IsChild x (QExpr.Not x)
  | field_child {f : FieldName} {x : QExpr} : IsChild x (QExpr.Field f x)

/-- Relation stating that `s` is a subexpression of `e`: the
reflexive-transitive closure of the
immediate-child relation. -/
def Subexpr (s e : QExpr) : Prop := Relation.ReflTransGen IsChild s e

theorem validate_ok_of_isChild {s e : QExpr}
    (hok : validate e = Except.ok ()) (h : IsChild s e) :
    validate s = Except.ok () := by
  cases h with
  | and_mem hmem =>
    simp only [validate] at hok
    split at hok
    · exact absurd hok (by simp)
    · exact (validateChildren_ok_iff _).mp hok _ hmem
  | or_mem hmem =>
    simp only [validate] at hok
    split at hok
    · exact absurd hok (by simp)
    · exact (validateChildren_ok_iff _).mp hok _ hmem
  | not_child =>
    simp only [validate] at hok
    exact hok
  | field_child =>
    simp only [validate] at hok
    split at hok
    · exact absurd hok (by simp)
    · exact hok

/-- Claim C8: validity is closed under taking subtrees — if `validate e` is
`Ok(())` then so is `validate s` for every subexpression `s` of `e`. -/
theorem validate_ok_subexpr (e s : QExpr)
    (hok : validate e = Except.ok ()) (hsub : Subexpr s e) :
    validate s = Except.ok () := by
  induction hsub with
  | refl => exact hok
  | tail h1 h2 ih => exact ih (validate_ok_of_isChild hok h2)

/-- Witness for C8: a concrete valid tree and one of its subexpressions. -/
theorem validate_ok_subexpr_witness :
    validate (QExpr.And [QExpr.Term (Term.new "a")]) = Except.ok () ∧
    validate (QExpr.Term (Term.new "a")) = Except.ok () :=
  ⟨by decide,
   validate_ok_subexpr (QExpr.And [QExpr.Term (Term.new "a")])
     (QExpr.Term (Term.new "a")) (by decide)
     (Relation.ReflTransGen.single (IsChild.and_mem (by simp)))⟩

/-! ## Structured encoding (C7)

The serde derives are declared in the source as
`#[cfg_attr(feature = "serde", derive(Serialize, Deserialize))]` on `QExpr`,
`Term`, `Phrase`, `Near` and `FieldName`. `ValidateError` derives only
`Debug, Clone, PartialEq, Eq` — it carries no serde derive. The derive-generated
encoding itself is not part of the source, so it is modelled from the spec. -/

/-- The public types of the crate. -/
inductive PublicType where
  | Term
  | Phrase
  | Near
  | FieldName
  | QExpr
  | ValidateError
deriving DecidableEq

/-- Which public types carry the optional structured-encoding derive in the
source: the `cfg_attr(feature = "serde", derive(Serialize, Deserialize))`
attribute appears on `QExpr`, `Term`, `Phrase`, `Near` and `FieldName`, but
not on `ValidateError`. -/
def hasStructuredEncoding : PublicType → Bool
  | .Term => true
  | .Phrase => true
  | .Near => true
  | .FieldName => true
  | .QExpr => true
  | .ValidateError => false

/-- Modelled from the spec: a JSON-like structured value — "any format
preserving variant identity and field values satisfies the contract". -/
inductive SValue where
  | str : String → SValue
  | num : Nat → SValue
  | bool : Bool → SValue
  | list : List SValue → SValue
  | tag : String → SValue → SValue

mutual

/-- Modelled from the spec: the structured encoding of a `QExpr`, preserving
the exact variant tags and field values (the derive-generated encoder is not
part of the source). -/
def encode : QExpr → SValue
  | .Term t => .tag "Term" (.str t.text)
  | .Phrase p => .tag "Phrase" (.list (p.terms.map fun t => SValue.str t.text))
  | .Near n =>
      .tag "Near" (.list [.list (n.terms.map fun t => SValue.str t.text),
        .num n.window, .bool n.ordered])
  | .And xs => .tag "And" (.list (encodeList xs))
  | .Or xs => .tag "Or" (.list (encodeList xs))
  | .Not x => .tag "Not" (encode x)
  | .Field f x => .tag "Field" (.list [.str f.text, encode x])
termination_by structural e => e

/-- Encode a list of children elementwise. -/
def encodeList : List QExpr → List SValue
  | [] => []
  | x :: xs => encode x :: encodeList xs
termination_by structural xs => xs

end

/-- Decode a list of structured values back into terms. -/
def decodeTerms : List SValue → Option (List Term)
  | [] => some []
  | .str s :: vs =>
      match decodeTerms vs with
      | some ts => some (Term.new s :: ts)
      | none => none
  | _ => none

mutual

/-- Modelled from the spec: the structured decoding of a `QExpr`, the partial
inverse of `encode`. -/
def decode : SValue → Option QExpr
  | .tag "Term" (.str s) => some (.Term (Term.new s))
  | .tag "Phrase" (.list vs) =>
      match decodeTerms vs with
      | some ts => some (.Phrase (Phrase.new ts))
      | none => none
  | .tag "Near" (.list [.list vs, .num w, .bool o]) =>
      match decodeTerms vs with
      | some ts => some (.Near (Near.new ts w o))
      | none => none
  | .tag "And" (.list vs) =>
      match decodeList vs with
      | some xs => some (.And xs)
      | none => none
  | .tag "Or" (.list vs) =>
      match decodeList vs with
      | some xs => some (.Or xs)
      | none => none
  | .tag "Not" v =>
      match decode v with
      | some x => some (.Not x)
      | none => none
  | .tag "Field" (.list [.str s, v]) =>
      match decode v with
      | some x => some (.Field (FieldName.new s) x)
      | none => none
  | _ => none
termination_by structural v => v

/-- Decode a list of children elementwise, failing if any element fails. -/
def decodeList : List SValue → Option (List QExpr)
  | [] => some []
  | v :: vs =>
      match decode v with
      | some x =>
          match decodeList vs with
          | some xs => some (x :: xs)
          | none => none
      | none => none
termination_by structural vs => vs

end

theorem decodeTerms_encodeTerms (ts : List Term) :
    decodeTerms (ts.map fun t => SValue.str t.text) = some ts := by
  induction ts with
  | nil => rfl
  | cons t ts ih => simp [decodeTerms, ih, Term.new]

mutual

theorem decode_encode (x : QExpr) : decode (encode x) = some x := by
  cases x with
  | Term t => simp [encode, decode, Term.new]
  | Phrase p => simp [encode, decode, decodeTerms_encodeTerms, Phrase.new]
  | Near n => simp [encode, decode, decodeTerms_encodeTerms, Near.new]
  | And xs => simp [encode, decode, decodeList_encodeList xs]
  | Or xs => simp [encode, decode, decodeList_encodeList xs]
  | Not x => simp [encode, decode, decode_encode x]
  | Field f x => simp [encode, decode, decode_encode x, FieldName.new]
termination_by structural x

theorem decodeList_encodeList (xs : List QExpr) :
    decodeList (encodeList xs) = some xs := by
  cases xs with
  | nil => rfl
  | cons x xs =>
      simp [encodeList, decodeList, decode_encode x, decodeList_encodeList xs]
termination_by structural xs

end

/-- Counterexample to C7 as stated: `ValidateError` is a public type that does
not carry the structured-encoding derive, so not every public type supports
serialization and deserialization. -/
theorem validateError_lacks_encoding :
    hasStructuredEncoding PublicType.ValidateError = false ∧
    ¬ ∀ t : PublicType, hasStructuredEncoding t = true := by
  exact ⟨rfl, fun h => absurd (h PublicType.ValidateError) (by decide)⟩

/-- Claim C7 (amended): when the optional structured encoding is enabled,
every public type except `ValidateError` supports it, and for every `QExpr`
the encoding round-trips: `decode (encode x) = some x`. -/
theorem structured_encoding_roundtrip :
    (∀ t : PublicType, t ≠ PublicType.ValidateError →
      hasStructuredEncoding t = true) ∧
    ∀ x : QExpr, decode (encode x) = some x := by
  constructor
  · intro t ht
    cases t <;> first | rfl | exact absurd rfl ht
  · exact decode_encode

/-- Witness for C7 (amended): a serializable public type and a concrete
round-trip. -/
theorem structured_encoding_roundtrip_witness :
    hasStructuredEncoding PublicType.QExpr = true ∧
    decode (encode (QExpr.Term (Term.new "a"))) =
      some (QExpr.Term (Term.new "a")) :=
  ⟨structured_encoding_roundtrip.1 PublicType.QExpr (by decide),
   structured_encoding_roundtrip.2 (QExpr.Term (Term.new "a"))⟩
